import Mathlib

/-!
Verification of the confidence-gated retrieval-and-generation pipeline of this
repository against its specification.

The Python sources are shallowly embedded:

* Python floats are modelled as rationals (`ℚ`); the numeric literals that the
  claims mention (0.35, 0.1, 0.2, …) are exact in `ℚ`.
* Python strings are Lean `String`s; the concrete regular expressions of the
  source (`<think>` stripping, trailing `Sources:` removal, `\[\d+\]` citation
  search, `\bautocad\b`) are implemented as character-list scanners with the
  exact matching semantics of the patterns (case-insensitivity, non-greedy
  repetition, `$` also matching before a final newline).
* The two network backends are oracles passed in as functions: the search
  backend maps a (strategy, result count) request to a reply (a raised error,
  a malformed payload, or a hit list — the query text and blend weight are
  fixed for the duration of one request and absorbed into the oracle), and the
  generation backend maps a (prompt, token budget) request to either returned
  text or a raised error.  The embedded pipeline additionally records the
  sequence of generation calls it performs, so that "no generation call is
  made" and "exactly one retry" are stated about the embedding itself.
-/

/-! ## Python-string primitives -/

/-- The ASCII whitespace class of Python's `str.strip` and of `\s`. -/
def isPySpace (c : Char) : Bool :=
  c = ' ' || c = '\t' || c = '\n' || c = '\r' || c = '\x0b' || c = '\x0c'

/-- Case-insensitive character comparison, as produced by `re.IGNORECASE`. -/
def ciEq (a b : Char) : Bool := a.toLower = b.toLower

/-- `startsWithCI tag l`: `l` begins with `tag`, compared case-insensitively. -/
def startsWithCI : List Char → List Char → Bool
  | [], _ => true
  | _ :: _, [] => false
  | t :: ts, c :: cs => ciEq t c && startsWithCI ts cs

/-- `containsCI tag l`: a case-insensitive occurrence of the (non-empty)
literal `tag` exists somewhere in `l`. -/
def containsCI (tag : List Char) : List Char → Bool
  | [] => false
  | c :: rest => startsWithCI tag (c :: rest) || containsCI tag rest

/-- Python `str.rstrip()` on a character list. -/
def pyRStripL (l : List Char) : List Char :=
  (l.reverse.dropWhile isPySpace).reverse

/-- Python `str.strip()` on a character list. -/
def pyStripL (l : List Char) : List Char :=
  pyRStripL (l.dropWhile isPySpace)

/-- Python `str.strip()`. -/
def pyStripStr (s : String) : String := String.mk (pyStripL s.data)

/-- Python `str.rstrip()`. -/
def pyRStripStr (s : String) : String := String.mk (pyRStripL s.data)

/-- Python's `max` over a non-empty list of floats (the `[]` case is never
reached by the callers, which guard on non-emptiness; it returns 0 there). -/
def listMax : List ℚ → ℚ
  | [] => 0
  | [x] => x
  | x :: y :: rest => max x (listMax (y :: rest))

/-- `firstPart xs ys`: `xs` is an initial segment of `ys`. -/
def firstPart {α : Type} (xs ys : List α) : Prop := ∃ t, xs ++ t = ys

/-! ## The `<think>`-block scanners

`backend_core._strip` applies `re.sub(r"(?is)<think>.*?(?:</think>|$)", "", s)`:
every opening marker is removed together with everything up to the first
closing marker after it, or — when no closing marker follows — up to `$`,
which in Python matches at the end of the string and also just before a
newline that ends the string (so an unclosed block that ends in a newline
leaves that one final newline behind; the subsequent `.strip()` discards it).

`ui_gradio.strip_think` applies
`re.sub(r"<think>.*?</think>\s*", "", s, flags=DOTALL|IGNORECASE)`: only
properly closed blocks are removed, together with the whitespace run that
follows the closing marker; an opening marker with no closing marker after it
is left in place.
-/

def thinkOpenL : List Char := ['<', 't', 'h', 'i', 'n', 'k', '>']

def thinkCloseL : List Char := ['<', '/', 't', 'h', 'i', 'n', 'k', '>']

/-- State of the one-character-per-step scanner for the backend pattern:
outside any block; consuming the remaining `n` characters of an opening or
closing marker; or inside a block looking for the closing marker. -/
inductive RtSt : Type
  | outside : RtSt
  | opening : Nat → RtSt
  | inside : RtSt
  | closing : Nat → RtSt

/-- The backend scanner.  In `inside` state with exactly one character left,
no closing marker can follow, so the regex alternative `$` applies: it matches
before a final newline (keeping it) and at the very end otherwise. -/
def rtb : RtSt → List Char → List Char
  | _, [] => []
  | RtSt.outside, c :: rest =>
      if startsWithCI thinkOpenL (c :: rest) then rtb (RtSt.opening 6) rest
      else c :: rtb RtSt.outside rest
  | RtSt.opening m, _ :: rest =>
      rtb (if m ≤ 1 then RtSt.inside else RtSt.opening (m - 1)) rest
  | RtSt.inside, c :: rest =>
      if startsWithCI thinkCloseL (c :: rest) then rtb (RtSt.closing 7) rest
      else
        match rest with
        | [] => if c = '\n' then ['\n'] else []
        | _ :: _ => rtb RtSt.inside rest
  | RtSt.closing m, _ :: rest =>
      rtb (if m ≤ 1 then RtSt.outside else RtSt.closing (m - 1)) rest

/-- `backend_core`: removal of `<think>` blocks (closed or running to the end
of the text). -/
def removeThinkB (l : List Char) : List Char := rtb RtSt.outside l

/-- State of the scanner for the UI pattern: as `RtSt`, plus a state that
consumes the `\s*` whitespace run after a closing marker. -/
inductive StSt : Type
  | outside : StSt
  | opening : Nat → StSt
  | inside : StSt
  | closing : Nat → StSt
  | wsSkip : StSt

/-- The UI scanner.  An opening marker is consumed only when a closing marker
exists later in the text (the regex finds no match otherwise); after the
closing marker the following whitespace run is consumed. -/
def stb : StSt → List Char → List Char
  | _, [] => []
  | StSt.outside, c :: rest =>
      if startsWithCI thinkOpenL (c :: rest) && containsCI thinkCloseL (rest.drop 6) then
        stb (StSt.opening 6) rest
      else c :: stb StSt.outside rest
  | StSt.opening m, _ :: rest =>
      stb (if m ≤ 1 then StSt.inside else StSt.opening (m - 1)) rest
  | StSt.inside, c :: rest =>
      if startsWithCI thinkCloseL (c :: rest) then stb (StSt.closing 7) rest
      else stb StSt.inside rest
  | StSt.closing m, _ :: rest =>
      stb (if m ≤ 1 then StSt.wsSkip else StSt.closing (m - 1)) rest
  | StSt.wsSkip, c :: rest =>
      if isPySpace c then stb StSt.wsSkip rest
      else if startsWithCI thinkOpenL (c :: rest) && containsCI thinkCloseL (rest.drop 6) then
        stb (StSt.opening 6) rest
      else c :: stb StSt.outside rest

/-! ## Trailing `Sources:` removal (backend)

`re.sub(r"(?ims)\n+Sources?:[\s\S]*\Z", "", s)`: the text is cut at the first
newline run that is immediately followed by a case-insensitive `Source:` or
`Sources:`; everything from that first newline to the end is removed.
-/

/-- Case-insensitive `Sources?:` at the front of `l`. -/
def srcTagAt (l : List Char) : Bool :=
  startsWithCI ['s', 'o', 'u', 'r', 'c', 'e'] l &&
    (startsWithCI ['s', ':'] (l.drop 6) || startsWithCI [':'] (l.drop 6))

/-- `\n+Sources?:` matches at the front of `l`. -/
def srcCut (l : List Char) : Bool :=
  match l with
  | '\n' :: _ => srcTagAt (l.dropWhile (fun c => c = '\n'))
  | _ => false

/-- Cut the text at the first position where `\n+Sources?:` matches. -/
def removeSrc : List Char → List Char
  | [] => []
  | c :: rest => if srcCut (c :: rest) then [] else c :: removeSrc rest

/-! ## `ui_gradio.strip_think`'s "keep from first heading" step

After removing closed think blocks, the UI searches
`(?:^|\n)(###\s.+|[-*]\s+.+|\d+\.\s+.+)` and, when a match exists, keeps the
text from the match's start (which includes the leading newline when the match
was found via the `\n` alternative).  Without `re.DOTALL`, `.` excludes `\n`
while `\s` includes it.
-/

/-- `\s+.+` matches at the front of `l` after ≥ 1 whitespace characters have
still to be consumed: keep consuming whitespace until a non-newline character
is current (`.` matches any character except a newline, whitespace included). -/
def anyAfterWs : List Char → Bool
  | [] => false
  | c :: rest => decide (c ≠ '\n') || (isPySpace c && anyAfterWs rest)

/-- `\s+.+` matches at the front of `l`. -/
def wsThenAny : List Char → Bool
  | [] => false
  | c :: rest => isPySpace c && anyAfterWs rest

/-- `\d+\.\s+.+` after the first digit has been consumed. -/
def numberedAfterDigit : List Char → Bool
  | [] => false
  | c :: rest => if c.isDigit then numberedAfterDigit rest else c = '.' && wsThenAny rest

/-- `###\s.+ | [-*]\s+.+ | \d+\.\s+.+` matches at the front of `l`. -/
def headMatch (l : List Char) : Bool :=
  (match l with
   | '#' :: '#' :: '#' :: c :: rest =>
       isPySpace c && (match rest with | [] => false | d :: _ => decide (d ≠ '\n'))
   | _ => false) ||
  (match l with
   | c :: rest => ((c = '-' || c = '*') && wsThenAny rest) ||
       (c.isDigit && numberedAfterDigit rest)
   | [] => false)

/-- The position of the first `(?:^|\n)(…)` match, as the suffix it starts. -/
def keepAux : List Char → Option (List Char)
  | [] => none
  | c :: rest =>
      if c = '\n' && headMatch rest then some (c :: rest) else keepAux rest

/-- `cleaned[m.start():]` when the heading search matches, `cleaned` otherwise. -/
def keepFromHeading (l : List Char) : List Char :=
  if headMatch l then l else (keepAux l).getD l

/-! ## Citation and denylist scanners -/

/-- `\d+\]` continued: after at least one digit, the bracket must close. -/
def digitsCloseCont : List Char → Bool
  | [] => false
  | c :: rest => c = ']' || (c.isDigit && digitsCloseCont rest)

/-- `\d+\]` matches at the front of `l`. -/
def digitsClose : List Char → Bool
  | [] => false
  | c :: rest => c.isDigit && digitsCloseCont rest

/-- `re.search(r"\[\d+\]", s)`: a bracketed integer citation marker occurs. -/
def hasCitationL : List Char → Bool
  | [] => false
  | c :: rest => (c = '[' && digitsClose rest) || hasCitationL rest

/-- `re.search(r"\[\d+\]", s)` on a string. -/
def hasCitation (s : String) : Bool := hasCitationL s.data

/-- The maximal digit run at the front of `l`, as a number, with the rest. -/
def takeDigits : List Char → Nat → Nat × List Char
  | [], acc => (acc, [])
  | c :: rest, acc =>
      if c.isDigit then takeDigits rest (acc * 10 + (c.toNat - 48)) else (acc, c :: rest)

/-- All bracketed citation indices `[i]` occurring in the text, in order. -/
def citationsL : List Char → List Nat
  | [] => []
  | c :: rest =>
      if c = '[' && digitsClose rest then
        (takeDigits rest 0).1 :: citationsL rest
      else citationsL rest

/-- All bracketed citation indices of a string. -/
def citations (s : String) : List Nat := citationsL s.data

/-- Word characters for `\b` (ASCII view of Python's `\w`). -/
def isWordChar (c : Char) : Bool := c.isAlpha || c.isDigit || c = '_'

def autocadL : List Char := ['a', 'u', 't', 'o', 'c', 'a', 'd']

/-- `\bautocad\b` (case-insensitive) matches at the front of `l`. -/
def autocadAt (l : List Char) : Bool :=
  startsWithCI autocadL l &&
    (match l.drop 7 with | [] => true | c :: _ => !isWordChar c)

/-- Scan for `\bautocad\b`, carrying the previous character for the left
word boundary (`none` at the start of the text). -/
def mentionsAutocadAux : Option Char → List Char → Bool
  | _, [] => false
  | prev, c :: rest =>
      ((match prev with | none => true | some p => !isWordChar p) &&
        autocadAt (c :: rest)) ||
      mentionsAutocadAux (some c) rest

/-- `re.search(r"\bautocad\b", s, re.I)`. -/
def mentionsAutocad (s : String) : Bool := mentionsAutocadAux none s.data

/-! ## Data model

A retrieval hit as both pipelines consume it: the chunk fields used by the
context assemblers plus the `_additional` relevance envelope.  A duck-typed
numeric field is absent (`None`), a value `float()` parses, or a value
`float()` rejects (carrying its display text).
-/

inductive NumField : Type
  | absent : NumField
  | num : ℚ → NumField
  | unparseable : String → NumField
deriving DecidableEq

/-- The `_additional` envelope requested by both retrieval clients. -/
structure Additional : Type where
  score : NumField
  distance : NumField
deriving DecidableEq

/-- A chunk as returned by the search backend (fields not read by the
pipeline — `category`, `time_required`, `tutorial_files_used` — are carried
opaquely). -/
structure Hit : Type where
  additional : Additional
  page_title : Option String
  toc_title : Option String
  chunk_text : Option String
  page_url : Option String
  breadcrumb : Option (List String)
  chunk_index : Option Int
  video_links : Option (List String)
  category : Option String
  time_required : Option String
  tutorial_files_used : Option String
deriving DecidableEq

/-- The three retrieval strategies. -/
inductive Mode : Type
  | hybrid : Mode
  | bm25 : Mode
  | vector : Mode
deriving DecidableEq

/-- One reply of the search backend to a single query call: the call raises
(connection failure …), returns a payload in which one of the nested
`data` / `Get` / class-name lookups comes up empty (every such malformed shape
is mapped to `[]` by the chain of `.get(…, default) or` fallbacks), or returns
a ranked hit list. -/
inductive WeaviateReply : Type
  | error : String → WeaviateReply
  | malformed : WeaviateReply
  | hits : List Hit → WeaviateReply

/-- One reply of the generation backend: returned text, or a raised
transport/backend error. -/
inductive GenResult : Type
  | ok : String → GenResult
  | exn : String → GenResult

/-- A record of one generation call made by the pipeline. -/
structure GenCall : Type where
  prompt : String
  max_tokens : Nat
deriving DecidableEq

/-- Python truthiness chaining `a or b` for optional strings: an absent value
and the empty string both fall through to the alternative. -/
def orStr (a : Option String) (b : String) : String :=
  match a with
  | some s => if s = "" then b else s
  | none => b

/-- Render an optional integer the way a Python f-string renders the value
(`None` prints as `"None"`). -/
def showOptInt : Option Int → String
  | some i => toString i
  | none => "None"

/-! ## `backend_core.py` -/

namespace BackendCore

/-- Default of `float(os.getenv("OOD_MIN_SCORE", "0.35"))` (written `mkRat`
so that the gate comparison evaluates inside the kernel). -/
def OOD_MIN_SCORE : ℚ := mkRat 35 100

/-- Default of `float(os.getenv("OOD_MIN_SIM", "0.35"))`. -/
def OOD_MIN_SIM : ℚ := mkRat 35 100

/-- `backend_core._strip`: remove think blocks (closed, or unclosed and
running to the end), remove a trailing `Sources:` section, and strip
surrounding whitespace. -/
def _strip (s : String) : String :=
  String.mk (pyStripL (removeSrc (removeThinkB s.data)))

/-- `backend_core._conf`: prefer a parseable `score`; else clamp
`1 - distance` to `[0, 1]`; else `0`. -/
def _conf (h : Hit) : ℚ :=
  match h.additional.score with
  | NumField.num sc => sc
  | _ =>
      match h.additional.distance with
      | NumField.num dist => max 0 (min 1 (1 - dist))
      | _ => 0

/-- `backend_core._ok`: non-empty hits whose best confidence reaches the
strategy-class gate. -/
def _ok (hits : List Hit) (mode : Mode) : Bool :=
  if hits.isEmpty then false
  else
    let best := listMax (hits.map _conf)
    if mode = Mode.hybrid ∨ mode = Mode.bm25 then decide (OOD_MIN_SCORE ≤ best)
    else decide (OOD_MIN_SIM ≤ best)

/-- `backend_core._query`: issue one retrieval call.  The oracle stands for
the Weaviate round trip; a raised error propagates (there is no `try` in
`_query` or `rag_answer` around it), and every malformed payload shape is
mapped to `[]` by the `.get` chain. -/
def _query (backend : Mode → Nat → WeaviateReply) (mode : Mode) (k : Nat) :
    Except String (List Hit) :=
  match backend mode k with
  | WeaviateReply.error e => Except.error e
  | WeaviateReply.malformed => Except.ok []
  | WeaviateReply.hits l => Except.ok l

/-- One numbered block and source line of `backend_core._ctx`. -/
def ctxLine (i : Nat) (h : Hit) : String × String :=
  let title := orStr h.page_title (orStr h.toc_title "(untitled)")
  let url := orStr h.page_url ""
  let idx := h.chunk_index
  let crumbs := String.intercalate " > " (h.breadcrumb.getD [])
  let text := pyStripStr (h.chunk_text.getD "")
  let block := "[" ++ toString i ++ "] Title: " ++ title ++ "\nURL: " ++ url ++
    "\nChunk #" ++ showOptInt idx ++ "\nBreadcrumb: " ++ crumbs ++ "\n----\n" ++ text
  let show_idx := match idx with
    | some n => "(chunk " ++ toString n ++ ")"
    | none => ""
  let src := "- [" ++ toString i ++ "] " ++ title ++ " " ++ show_idx ++ "\n  " ++ url
  (block, src)

/-- The enumerate-from-`i` loop body of `backend_core._ctx`. -/
def ctxAux : Nat → List Hit → List String × List String
  | _, [] => ([], [])
  | i, h :: t =>
      let line := ctxLine i h
      let rest := ctxAux (i + 1) t
      (line.1 :: rest.1, line.2 :: rest.2)

/-- `backend_core._ctx`: the evidence block and the Markdown source listing. -/
def _ctx (hits : List Hit) : String × String :=
  let r := ctxAux 1 hits
  (String.intercalate "\n\n" r.1,
    if r.2.isEmpty then "_No sources_" else String.intercalate "\n" r.2)

/-- `backend_core._prompt`. -/
def _prompt (q ctx : String) : String :=
  let rules := "You are a helpful Autodesk Revit assistant.\n" ++
    "Use ONLY the information in SOURCES.\n" ++
    "If SOURCES do not clearly contain the answer, reply exactly: I don't know.\n" ++
    "Include bracket citations like [1], [2] tied to SOURCES numbers.\n" ++
    "Short, step-by-step when useful. No inner monologue. Do NOT print a 'Sources:' section."
  rules ++ "\n\nSOURCES:\n" ++ ctx ++ "\n\nUSER QUESTION:\n" ++ q ++
    "\n\nYOUR ANSWER (with citations only like [1], [2]):\n"

/-- The instruction appended to the prompt for the single bounded retry. -/
def briefSuffix : String :=
  "\nReply directly with the final answer only (no <think>, no Sources:). Keep it under 120 words and include [1] style citations."

/-- The `answer, src, diag` triple returned by `rag_answer`. -/
structure RagResult : Type where
  answer : String
  src : String
  hits : Nat
  best_conf : ℚ
  mode : Mode
  alpha : ℚ
  k : Nat
deriving DecidableEq

/-- The soft guardrail at the end of `rag_answer`: reject an answer that
mentions AutoCAD, else return it with its sources. -/
def finishAutocad (answer src : String) (r : RagResult) : RagResult :=
  if mentionsAutocad answer then
    { r with answer := "I don't know.", src := "" }
  else { r with answer := answer, src := src }

/-- The citation enforcement step of `rag_answer` followed by the guardrail:
when citations are required and none is present, append a best-effort ` [1]`
if `src` is truthy, else fall to the sentinel. -/
def finishAnswer (answer src : String) (r : RagResult) (require_citation : Bool) :
    RagResult :=
  if require_citation && !hasCitation answer then
    if src = "" then { r with answer := "I don't know.", src := "" }
    else finishAutocad (pyStripStr (pyRStripStr answer ++ " [1]")) src r
  else finishAutocad answer src r

/-- `backend_core.rag_answer`.  The second component of the result records
the generation calls performed, in order; a retrieval error propagates as
`Except.error`, while generation errors are caught and reported in the
answer text. -/
def rag_answer (backend : Mode → Nat → WeaviateReply) (gen : String → Nat → GenResult)
    (question : String) (mode : Mode) (alpha : ℚ) (k : Nat) (require_citation : Bool) :
    Except String (RagResult × List GenCall) :=
  match _query backend mode k with
  | Except.error e => Except.error e
  | Except.ok hits =>
      let diag : RagResult :=
        { answer := "", src := "", hits := hits.length,
          best_conf := if hits.isEmpty then 0 else listMax (hits.map _conf),
          mode := mode, alpha := alpha, k := k }
      if !_ok hits mode then
        Except.ok ({ diag with answer := "I don't know.", src := "" }, [])
      else
        let cs := _ctx hits
        let p := _prompt question cs.1
        match gen p 1200 with
        | GenResult.exn e =>
            Except.ok ({ diag with answer := "Generation error: " ++ e, src := "" },
              [{ prompt := p, max_tokens := 1200 }])
        | GenResult.ok t1 =>
            let answer := _strip t1
            if pyStripStr answer = "" then
              let brief := p ++ briefSuffix
              match gen brief 400 with
              | GenResult.exn e =>
                  Except.ok ({ diag with answer := "Generation error: " ++ e, src := "" },
                    [{ prompt := p, max_tokens := 1200 }, { prompt := brief, max_tokens := 400 }])
              | GenResult.ok t2 =>
                  Except.ok (finishAnswer (_strip t2) cs.2 diag require_citation,
                    [{ prompt := p, max_tokens := 1200 }, { prompt := brief, max_tokens := 400 }])
            else
              Except.ok (finishAnswer answer cs.2 diag require_citation,
                [{ prompt := p, max_tokens := 1200 }])

end BackendCore

/-! ## `ui_gradio.py`

Of `ask` we embed the retrieval path (steps 2–4 of the handler): the branches
taken when the question is non-empty and neither a capabilities question nor
small talk.  The result is projected to the assistant message text, the
sources-panel Markdown, and the recorded generation calls.  The module-level
`confident_enough` and `keyword_overlap` are their final runtime overrides
(the last definitions in the file win in Python).
-/

namespace UiGradio

/-- Default of `float(os.getenv("OOD_MIN_SCORE", "0.35"))`. -/
def OOD_MIN_SCORE : ℚ := mkRat 35 100

/-- Default of `float(os.getenv("OOD_MIN_SIM", "0.35"))`. -/
def OOD_MIN_SIM : ℚ := mkRat 35 100

/-- Default of `os.getenv("DEBUG_RETRIEVAL", "0") == "1"`. -/
def DEBUG_RETRIEVAL : Bool := false

/-- `ui_gradio.strip_think`: remove closed think blocks, keep from the first
heading / bullet / numbered item when one exists, strip whitespace. -/
def strip_think (s : String) : String :=
  String.mk (pyStripL (keepFromHeading (stb StSt.outside s.data)))

/-- `ui_gradio.hit_confidence`: prefer a parseable `score`; else clamp
`1 - distance` to `[0, 1]`; else `0`. -/
def hit_confidence (h : Hit) : ℚ :=
  match h.additional.score with
  | NumField.num sc => sc
  | _ =>
      match h.additional.distance with
      | NumField.num dist => max 0 (min 1 (1 - dist))
      | _ => 0

/-- `ui_gradio.confident_enough` (the runtime override at the end of the
file): a simple score-only gate.  The query argument is unused, as in the
source. -/
def confident_enough (hits : List Hit) (mode : Mode) (_q : String) : Bool :=
  if hits.isEmpty then false
  else
    let best := listMax (hits.map hit_confidence)
    if mode = Mode.hybrid ∨ mode = Mode.bm25 then decide (OOD_MIN_SCORE ≤ best)
    else decide (OOD_MIN_SIM ≤ best)

/-- The inner `try_search` of `ask`: any raised retrieval error is caught and
turned into an empty hit list; a malformed payload is already `[]` from the
`.get` chain of `query_weaviate`. -/
def try_search (backend : Mode → Nat → WeaviateReply) (m : Mode) (top_k : Nat) :
    List Hit :=
  match backend m top_k with
  | WeaviateReply.error _ => []
  | WeaviateReply.malformed => []
  | WeaviateReply.hits l => l

/-- `modes_to_try = [mode] + [m for m in ("hybrid", "bm25", "vector") if m != mode]`. -/
def modes_to_try (mode : Mode) : List Mode :=
  mode :: ([Mode.hybrid, Mode.bm25, Mode.vector].filter (fun m => m ≠ mode))

/-- The strategy loop of `ask`.  For each strategy: attempt with the
caller-requested `k`; if not accepted, retry once with `min(2*k, 15)`; stop at
the first accepted attempt.  The first component records each `try_search`
call as a (strategy, result count) pair, in order; the remaining components
are the loop's `used_mode` and final `hits` variables. -/
def askLoop (backend : Mode → Nat → WeaviateReply) (q : String) (k : Nat) :
    List Mode → List Hit → List (Mode × Nat) × Option Mode × List Hit
  | [], hits => ([], none, hits)
  | m :: ms, _ =>
      let h1 := try_search backend m k
      if !h1.isEmpty && confident_enough h1 m q then ([(m, k)], some m, h1)
      else
        let k2 := min (2 * k) 15
        let h2 := try_search backend m k2
        if !h2.isEmpty && confident_enough h2 m q then ([(m, k), (m, k2)], some m, h2)
        else
          let r := askLoop backend q k ms h2
          ((m, k) :: (m, k2) :: r.1, r.2.1, r.2.2)

/-- The whole fallback orchestration of `ask` (`hits` starts out empty). -/
def orchestrate (backend : Mode → Nat → WeaviateReply) (q : String) (mode : Mode)
    (k : Nat) : List (Mode × Nat) × Option Mode × List Hit :=
  askLoop backend q k (modes_to_try mode) []

/-- Zero-pad a fractional part to three digits. -/
def pad3 (n : Nat) : String :=
  (if n < 10 then "00" else if n < 100 then "0" else "") ++ toString n

/-- Python's `f"{x:.3f}"` over the rational embedding of floats (ties are
rounded half-up rather than by the binary-float half-even rule; no claim
depends on the rendered digits). -/
def fmt3 (q : ℚ) : String :=
  let n : Int := round (q * 1000)
  (if n < 0 then "-" else "") ++ toString (n.natAbs / 1000) ++ "." ++ pad3 (n.natAbs % 1000)

/-- `ui_gradio.metric_str`: human-readable retrieval metrics of one hit. -/
def metric_str (h : Hit) : String :=
  let sparts : List String :=
    match h.additional.score with
    | NumField.num sc => ["score=" ++ fmt3 sc]
    | NumField.unparseable raw => ["score=" ++ raw]
    | NumField.absent => []
  let dparts : List String :=
    match h.additional.distance with
    | NumField.num dist => ["sim=" ++ fmt3 (1 - dist)]
    | NumField.unparseable raw => ["distance=" ++ raw]
    | NumField.absent => []
  String.intercalate " | " (sparts ++ dparts)

/-- `ui_gradio.short_title`. -/
def short_title (h : Hit) : String :=
  orStr h.page_title (orStr h.toc_title "(untitled)")

/-- One evidence block and Markdown source line of `ui_gradio.build_context`. -/
def buildLine (i : Nat) (h : Hit) : String × String :=
  let title := short_title h
  let url := orStr h.page_url ""
  let idx := h.chunk_index
  let crumbs := String.intercalate " > " (h.breadcrumb.getD [])
  let text := pyStripStr (h.chunk_text.getD "")
  let block := "[" ++ toString i ++ "] Title: " ++ title ++ "\nURL: " ++ url ++
    "\nChunk #" ++ showOptInt idx ++ "\nBreadcrumb: " ++ crumbs ++ "\n----\n" ++ text
  let metr0 := metric_str h
  let metr := if metr0 = "" then "" else " — " ++ metr0
  let show_idx := match idx with
    | some n => "(chunk " ++ toString n ++ ")"
    | none => ""
  let line := "- **[" ++ toString i ++ "] " ++ title ++ "** " ++ show_idx ++ metr ++
    "  \n  " ++ url
  let vids := h.video_links.getD []
  let vlist := String.intercalate ", "
    ((vids.filter (fun v => v.data.take 4 = ['h', 't', 't', 'p'])).map
      (fun v => "[video](" ++ v ++ ")"))
  let line := if !vids.isEmpty && vlist ≠ "" then line ++ "\n  Videos: " ++ vlist else line
  (block, line)

/-- The enumerate-from-`i` loop body of `ui_gradio.build_context`. -/
def buildAux : Nat → List Hit → List String × List String
  | _, [] => ([], [])
  | i, h :: t =>
      let line := buildLine i h
      let rest := buildAux (i + 1) t
      (line.1 :: rest.1, line.2 :: rest.2)

/-- `ui_gradio.build_context`. -/
def build_context (hits : List Hit) : String × String :=
  let r := buildAux 1 hits
  (String.intercalate "\n\n" r.1,
    if r.2.isEmpty then "_No sources_" else String.intercalate "\n" r.2)

/-- `ui_gradio.build_prompt`. -/
def build_prompt (question context_block : String) : String :=
  let rules := "You are a helpful Autodesk Revit assistant.\n" ++
    "Answer ONLY from SOURCES.\n" ++
    "If the SOURCES do not clearly contain the answer, reply exactly: I don't know.\n" ++
    "Put a citation like [1] [2] at the END OF EVERY SENTENCE you write.\n" ++
    "Do NOT describe your reasoning or process. No prefaces like 'I need to figure out'.\n" ++
    "Return clean Markdown only. Prefer a short bulleted 'Steps' section when appropriate."
  rules ++ "\n\nSOURCES:\n" ++ context_block ++ "\n\nUSER QUESTION:\n" ++ question ++
    "\n\nYOUR ANSWER:\n"

/-- Render a strategy name as the Python string. -/
def modeName : Mode → String
  | Mode.hybrid => "hybrid"
  | Mode.bm25 => "bm25"
  | Mode.vector => "vector"

/-- The citation post-check at the end of `ask`: an answer with no `[n]`
marker is replaced by the sentinel and the sources panel is cleared. -/
def askFinish (answer src_md : String) (calls : List GenCall) :
    String × String × List GenCall :=
  if !hasCitation answer then ("I don't know.", "", calls) else (answer, src_md, calls)

/-- The retrieval path of `ask` (steps 2–4): orchestrate, then build the
prompt and call the generation backend once with a 600-token budget, catching
any raised error into an error message; finally apply the citation
post-check.  Returns the assistant message, the sources-panel Markdown and
the recorded generation calls. -/
def ask_core (backend : Mode → Nat → WeaviateReply) (gen : String → Nat → GenResult)
    (q : String) (mode : Mode) (k : Nat) : String × String × List GenCall :=
  let r := orchestrate backend q mode k
  let used_mode := r.2.1
  let hits := r.2.2
  let dbg := if DEBUG_RETRIEVAL then
      "_debug: mode=" ++ (match used_mode with | some m => modeName m | none => "none") ++
        " | topK=" ++ toString hits.length ++ "_"
    else ""
  if hits.isEmpty || used_mode.isNone then ("I don't know.", "", [])
  else
    let cs := build_context hits
    let src_md := if DEBUG_RETRIEVAL && cs.2 ≠ "" then dbg ++ "\n\n" ++ cs.2 else cs.2
    let prompt := build_prompt q cs.1
    match gen prompt 600 with
    | GenResult.ok raw =>
        let answer := pyStripStr (strip_think raw)
        askFinish answer src_md [{ prompt := prompt, max_tokens := 600 }]
    | GenResult.exn e =>
        askFinish ("I encountered an error while generating the response: " ++ e) ""
          [{ prompt := prompt, max_tokens := 600 }]

end UiGradio

/-! ## Spec-side definitions and concrete fixtures -/

/-- From the spec's words: the planned attempt sequence of the Fallback
Orchestrator — the caller-preferred strategy first, then the remaining two in
the fixed fallback order, each tried with the caller-requested `k` and then
with the enlarged count `min(2k, 15)`. -/
def plannedAttempts (mode : Mode) (k : Nat) : List (Mode × Nat) :=
  (UiGradio.modes_to_try mode).flatMap (fun m => [(m, k), (m, min (2 * k) 15)])

/-- The acceptance test the orchestrator applies to one attempt: non-empty
hits that pass the confidence gate. -/
def attemptAccepted (backend : Mode → Nat → WeaviateReply) (q : String)
    (a : Mode × Nat) : Bool :=
  !(UiGradio.try_search backend a.1 a.2).isEmpty &&
    UiGradio.confident_enough (UiGradio.try_search backend a.1 a.2) a.1 q

/-- From the spec's words: the UI gate threshold per strategy class. -/
def uiGate : Mode → ℚ
  | Mode.hybrid => UiGradio.OOD_MIN_SCORE
  | Mode.bm25 => UiGradio.OOD_MIN_SCORE
  | Mode.vector => UiGradio.OOD_MIN_SIM

/-- From the spec's words: the backend gate threshold per strategy class. -/
def backendGate : Mode → ℚ
  | Mode.hybrid => BackendCore.OOD_MIN_SCORE
  | Mode.bm25 => BackendCore.OOD_MIN_SCORE
  | Mode.vector => BackendCore.OOD_MIN_SIM

/-- A concrete chunk carrying the given relevance envelope. -/
def plainHit (a : Additional) : Hit :=
  { additional := a, page_title := some "Curtain Walls", toc_title := none,
    chunk_text := some "curtain wall grids", page_url := some "http://x",
    breadcrumb := some [], chunk_index := some 1, video_links := some [],
    category := none, time_required := none, tutorial_files_used := none }

def hitScore09 : Hit := plainHit { score := NumField.num (mkRat 9 10), distance := NumField.absent }

def hitScore01 : Hit := plainHit { score := NumField.num (mkRat 1 10), distance := NumField.absent }

def hitScore2 : Hit := plainHit { score := NumField.num 2, distance := NumField.absent }

def hitBadScore : Hit :=
  plainHit { score := NumField.unparseable "n/a", distance := NumField.num (mkRat 1 5) }

def hitDist15 : Hit := plainHit { score := NumField.absent, distance := NumField.num (mkRat 3 2) }

def hitNone : Hit := plainHit { score := NumField.absent, distance := NumField.absent }

/-- A backend whose every reply is one strong hit. -/
def goodBackend : Mode → Nat → WeaviateReply := fun _ _ => WeaviateReply.hits [hitScore09]

/-- A backend whose every reply is hits of score 0.1 only. -/
def lowBackend : Mode → Nat → WeaviateReply := fun _ _ => WeaviateReply.hits [hitScore01]

/-- A backend whose every reply is empty. -/
def emptyBackend : Mode → Nat → WeaviateReply := fun _ _ => WeaviateReply.hits []

/-- A backend whose every call raises. -/
def errBackend : Mode → Nat → WeaviateReply := fun _ _ => WeaviateReply.error "connection refused"

/-- A backend whose every reply has a malformed payload shape. -/
def malformedBackend : Mode → Nat → WeaviateReply := fun _ _ => WeaviateReply.malformed

/-- A generation oracle that always answers with an out-of-range citation. -/
def genSeven : String → Nat → GenResult := fun _ _ => GenResult.ok "Answer [7]"

/-- A generation oracle that always raises. -/
def genErr : String → Nat → GenResult := fun _ _ => GenResult.exn "boom"

/-- Scenario C's generation oracle: empty text on the first (1200-token)
call, a final cited answer on the 400-token retry. -/
def genRetry : String → Nat → GenResult := fun _ b =>
  if b = 400 then GenResult.ok "Final answer. [1]" else GenResult.ok ""

/-! ## Theorems -/

/-- C1: the Relevance Scorer prefers a present, parseable `score`; otherwise
a present, parseable `distance` yields `clamp(1 - distance, 0, 1)`; with
neither present (or both unparseable) the confidence is 0 — in both the
backend (`_conf`) and the UI (`hit_confidence`) scorer. -/
theorem C1_confidence_rule (h : Hit) :
    (∀ q : ℚ, h.additional.score = NumField.num q →
      BackendCore._conf h = q ∧ UiGradio.hit_confidence h = q) ∧
    ((h.additional.score = NumField.absent ∨
        (∃ r, h.additional.score = NumField.unparseable r)) →
      (∀ q : ℚ, h.additional.distance = NumField.num q →
        BackendCore._conf h = max 0 (min 1 (1 - q)) ∧
        UiGradio.hit_confidence h = max 0 (min 1 (1 - q))) ∧
      ((h.additional.distance = NumField.absent ∨
          (∃ r, h.additional.distance = NumField.unparseable r)) →
        BackendCore._conf h = 0 ∧ UiGradio.hit_confidence h = 0)) := by
  constructor
  · intro q hq
    constructor <;> simp [BackendCore._conf, UiGradio.hit_confidence, hq]
  · intro hs
    constructor
    · intro q hd
      rcases hs with h1 | ⟨r, h1⟩ <;>
        constructor <;> simp [BackendCore._conf, UiGradio.hit_confidence, h1, hd]
    · intro hd
      rcases hs with h1 | ⟨r, h1⟩ <;> rcases hd with h2 | ⟨r2, h2⟩ <;>
        constructor <;> simp [BackendCore._conf, UiGradio.hit_confidence, h1, h2]

/-- Witness for C1 at concrete hits: a score of 0.9 is used directly; an
unparseable score with distance 0.2 yields 0.8; distance 1.5 clamps to 0;
absent fields yield 0. -/
theorem C1_confidence_rule_witness :
    BackendCore._conf hitScore09 = 9 / 10 ∧
    BackendCore._conf hitBadScore = 4 / 5 ∧
    BackendCore._conf hitDist15 = 0 ∧
    BackendCore._conf hitNone = 0 := by
  refine ⟨?_, ?_, ?_, ?_⟩
  · have h := ((C1_confidence_rule hitScore09).1 (mkRat 9 10) rfl).1
    rw [h, Rat.mkRat_eq_div]; norm_num
  · have h := (((C1_confidence_rule hitBadScore).2 (Or.inr ⟨"n/a", rfl⟩)).1 (mkRat 1 5) rfl).1
    rw [h, Rat.mkRat_eq_div]; norm_num
  · have h := (((C1_confidence_rule hitDist15).2 (Or.inl rfl)).1 (mkRat 3 2) rfl).1
    rw [h, Rat.mkRat_eq_div]; norm_num
  · exact (((C1_confidence_rule hitNone).2 (Or.inl rfl)).2 (Or.inl rfl)).1

/-- C3: an attempt is accepted iff its hit list is non-empty and the maximum
confidence over the hits reaches the strategy-class gate, whose default is
0.35 both for the score-bearing strategies (hybrid, bm25) and for the
pure-vector strategy — for the UI gate, the backend gate, and the
orchestrator's acceptance test. -/
theorem C3_acceptance_gate (hits : List Hit) (mode : Mode) (q : String)
    (backend : Mode → Nat → WeaviateReply) (kk : Nat) :
    (UiGradio.confident_enough hits mode q = true ↔
      hits ≠ [] ∧ uiGate mode ≤ listMax (hits.map UiGradio.hit_confidence)) ∧
    (BackendCore._ok hits mode = true ↔
      hits ≠ [] ∧ backendGate mode ≤ listMax (hits.map BackendCore._conf)) ∧
    (attemptAccepted backend q (mode, kk) = true ↔
      UiGradio.try_search backend mode kk ≠ [] ∧
        uiGate mode ≤ listMax ((UiGradio.try_search backend mode kk).map UiGradio.hit_confidence)) ∧
    uiGate Mode.hybrid = 35 / 100 ∧ uiGate Mode.bm25 = 35 / 100 ∧
    uiGate Mode.vector = 35 / 100 ∧ backendGate Mode.hybrid = 35 / 100 ∧
    backendGate Mode.bm25 = 35 / 100 ∧ backendGate Mode.vector = 35 / 100 := by
  have hui : ∀ (l : List Hit) (m : Mode),
      (UiGradio.confident_enough l m q = true ↔
        l ≠ [] ∧ uiGate m ≤ listMax (l.map UiGradio.hit_confidence)) := by
    intro l m
    cases l with
    | nil => simp [UiGradio.confident_enough]
    | cons a t =>
        cases m <;>
          simp [UiGradio.confident_enough, uiGate]
  have hgates : uiGate Mode.hybrid = 35 / 100 ∧ uiGate Mode.bm25 = 35 / 100 ∧
      uiGate Mode.vector = 35 / 100 ∧ backendGate Mode.hybrid = 35 / 100 ∧
      backendGate Mode.bm25 = 35 / 100 ∧ backendGate Mode.vector = 35 / 100 := by
    norm_num [uiGate, backendGate, UiGradio.OOD_MIN_SCORE, UiGradio.OOD_MIN_SIM,
      BackendCore.OOD_MIN_SCORE, BackendCore.OOD_MIN_SIM, Rat.mkRat_eq_div]
  refine ⟨hui hits mode, ?_, ?_, hgates.1, hgates.2.1, hgates.2.2.1, hgates.2.2.2.1,
    hgates.2.2.2.2.1, hgates.2.2.2.2.2⟩
  · cases hits with
    | nil => simp [BackendCore._ok]
    | cons a t =>
        cases mode <;>
          simp [BackendCore._ok, backendGate]
  · have := hui (UiGradio.try_search backend mode kk) mode
    constructor
    · intro hacc
      have : UiGradio.confident_enough (UiGradio.try_search backend mode kk) mode q = true := by
        have hb := hacc
        unfold attemptAccepted at hb
        exact (Bool.and_eq_true _ _).mp hb |>.2
      exact (hui _ mode).mp this
    · intro hr
      have hc := (hui _ mode).mpr hr
      unfold attemptAccepted
      have hne : (UiGradio.try_search backend mode kk).isEmpty = false := by
        cases hx : UiGradio.try_search backend mode kk with
        | nil => exact absurd hx hr.1
        | cons a t => simp
      simp [hne, hc]

/-- C9 (the claim that confidence always lies in `[0, 1]`): the code returns
a present parseable `score` unclamped, so a hit whose `_additional.score` is
2.0 — a raw BM25-style score — gets confidence 2, outside `[0, 1]`, in both
scorers, contradicting the claim and `hit_confidence`'s own docstring. -/
theorem C9_unclamped_score :
    BackendCore._conf hitScore2 = 2 ∧ UiGradio.hit_confidence hitScore2 = 2 ∧
    ¬(BackendCore._conf hitScore2 ≤ 1) := by
  refine ⟨rfl, rfl, ?_⟩
  norm_num [BackendCore._conf, hitScore2, plainHit]

/-- Full characterization of the `ask` strategy loop: the recorded attempt
sequence is an initial segment of the planned sequence (each strategy with
`k` then with `min(2k, 15)`); either some attempt is accepted — then the
trace ends at the first accepted attempt, `used_mode` is its strategy and the
final hits are its result — or no planned attempt is accepted and `used_mode`
is `none`. -/
theorem askLoop_spec (backend : Mode → Nat → WeaviateReply) (q : String) (k : Nat)
    (ms : List Mode) (h0 : List Hit) :
    firstPart (UiGradio.askLoop backend q k ms h0).1
      (ms.flatMap (fun m => [(m, k), (m, min (2 * k) 15)])) ∧
    ((∃ m pre a, (UiGradio.askLoop backend q k ms h0).2.1 = some m ∧
        (UiGradio.askLoop backend q k ms h0).1 = pre ++ [a] ∧
        (∀ x ∈ pre, attemptAccepted backend q x = false) ∧
        attemptAccepted backend q a = true ∧ a.1 = m ∧
        (UiGradio.askLoop backend q k ms h0).2.2 = UiGradio.try_search backend a.1 a.2) ∨
      ((UiGradio.askLoop backend q k ms h0).2.1 = none ∧
        (UiGradio.askLoop backend q k ms h0).1 =
          ms.flatMap (fun m => [(m, k), (m, min (2 * k) 15)]) ∧
        ∀ x ∈ ms.flatMap (fun m => [(m, k), (m, min (2 * k) 15)]),
          attemptAccepted backend q x = false)) := by
  induction ms generalizing h0 with
  | nil => exact ⟨⟨[], rfl⟩, Or.inr ⟨rfl, rfl, by simp⟩⟩
  | cons m ms ih =>
      cases hb1 : attemptAccepted backend q (m, k) with
      | true =>
          have h1 : (!(UiGradio.try_search backend m k).isEmpty &&
              UiGradio.confident_enough (UiGradio.try_search backend m k) m q) = true := by
            simpa [attemptAccepted] using hb1
          have heq : UiGradio.askLoop backend q k (m :: ms) h0 =
              ([(m, k)], some m, UiGradio.try_search backend m k) := by
            simp only [UiGradio.askLoop]
            rw [if_pos h1]
          rw [heq]
          exact ⟨⟨(m, min (2 * k) 15) :: ms.flatMap (fun m => [(m, k), (m, min (2 * k) 15)]),
              by simp⟩,
            Or.inl ⟨m, [], (m, k), rfl, rfl, by simp, hb1, rfl, rfl⟩⟩
      | false =>
          have h1 : (!(UiGradio.try_search backend m k).isEmpty &&
              UiGradio.confident_enough (UiGradio.try_search backend m k) m q) = false := by
            simpa [attemptAccepted] using hb1
          cases hb2 : attemptAccepted backend q (m, min (2 * k) 15) with
          | true =>
              have h2 : (!(UiGradio.try_search backend m (min (2 * k) 15)).isEmpty &&
                  UiGradio.confident_enough (UiGradio.try_search backend m (min (2 * k) 15)) m q)
                    = true := by
                simpa [attemptAccepted] using hb2
              have heq : UiGradio.askLoop backend q k (m :: ms) h0 =
                  ([(m, k), (m, min (2 * k) 15)], some m,
                    UiGradio.try_search backend m (min (2 * k) 15)) := by
                simp only [UiGradio.askLoop]
                rw [if_neg (by simp [h1]), if_pos h2]
              rw [heq]
              refine ⟨⟨ms.flatMap (fun m => [(m, k), (m, min (2 * k) 15)]), by simp⟩,
                Or.inl ⟨m, [(m, k)], (m, min (2 * k) 15), rfl, rfl, ?_, hb2, rfl, rfl⟩⟩
              intro x hx
              rcases List.mem_singleton.mp hx with rfl
              exact hb1
          | false =>
              have h2 : (!(UiGradio.try_search backend m (min (2 * k) 15)).isEmpty &&
                  UiGradio.confident_enough (UiGradio.try_search backend m (min (2 * k) 15)) m q)
                    = false := by
                simpa [attemptAccepted] using hb2
              have heq : UiGradio.askLoop backend q k (m :: ms) h0 =
                  ((m, k) :: (m, min (2 * k) 15) ::
                      (UiGradio.askLoop backend q k ms
                        (UiGradio.try_search backend m (min (2 * k) 15))).1,
                    (UiGradio.askLoop backend q k ms
                        (UiGradio.try_search backend m (min (2 * k) 15))).2.1,
                    (UiGradio.askLoop backend q k ms
                        (UiGradio.try_search backend m (min (2 * k) 15))).2.2) := by
                simp only [UiGradio.askLoop]
                rw [if_neg (by simp [h1]), if_neg (by simp [h2])]
              rw [heq]
              obtain ⟨⟨t, ht⟩, hcases⟩ := ih (UiGradio.try_search backend m (min (2 * k) 15))
              constructor
              · exact ⟨t, by simp [← ht]⟩
              · rcases hcases with ⟨m', pre, a, hsome, htr, hpre, hacc, ha1, hhits⟩ |
                  ⟨hnone, htr, hall⟩
                · refine Or.inl ⟨m', (m, k) :: (m, min (2 * k) 15) :: pre, a, hsome,
                    by simp [htr], ?_, hacc, ha1, hhits⟩
                  intro x hx
                  rcases List.mem_cons.mp hx with rfl | hx
                  · exact hb1
                  rcases List.mem_cons.mp hx with rfl | hx
                  · exact hb2
                  exact hpre x hx
                · refine Or.inr ⟨hnone, by simp [htr], ?_⟩
                  intro x hx
                  simp only [List.flatMap_cons] at hx
                  rcases List.mem_append.mp hx with hx | hx
                  · rcases List.mem_cons.mp hx with rfl | hx
                    · exact hb1
                    rcases List.mem_singleton.mp hx with rfl
                    exact hb2
                  · exact hall x hx

/-- C2: the Fallback Orchestrator tries the caller-preferred strategy first
and then the remaining two in the fixed fallback order; for each strategy it
attempts with the caller-requested `k` and, when that attempt is not
accepted, retries the same strategy exactly once with `min(2k, 15)` before
advancing; it stops at the first accepted attempt.  Formally: the recorded
attempt trace is an initial segment of the planned sequence, every attempt
before the last is rejected, and the loop either ends at an accepted attempt
that fixes `used_mode` and the hits, or runs the whole planned sequence with
every attempt rejected and `used_mode = none`. -/
theorem C2_fallback_order (backend : Mode → Nat → WeaviateReply) (q : String)
    (mode : Mode) (k : Nat) :
    firstPart (UiGradio.orchestrate backend q mode k).1 (plannedAttempts mode k) ∧
    ((∃ m pre a, (UiGradio.orchestrate backend q mode k).2.1 = some m ∧
        (UiGradio.orchestrate backend q mode k).1 = pre ++ [a] ∧
        (∀ x ∈ pre, attemptAccepted backend q x = false) ∧
        attemptAccepted backend q a = true ∧ a.1 = m ∧
        (UiGradio.orchestrate backend q mode k).2.2 =
          UiGradio.try_search backend a.1 a.2) ∨
      ((UiGradio.orchestrate backend q mode k).2.1 = none ∧
        (UiGradio.orchestrate backend q mode k).1 = plannedAttempts mode k ∧
        ∀ x ∈ plannedAttempts mode k, attemptAccepted backend q x = false)) :=
  askLoop_spec backend q k (UiGradio.modes_to_try mode) []

/-- When no planned attempt is accepted, the orchestrator exhausts all
strategies and reports no usable mode. -/
theorem orchestrate_exhausted (backend : Mode → Nat → WeaviateReply) (q : String)
    (mode : Mode) (k : Nat)
    (hall : ∀ x ∈ plannedAttempts mode k, attemptAccepted backend q x = false) :
    (UiGradio.orchestrate backend q mode k).2.1 = none := by
  unfold UiGradio.orchestrate
  obtain ⟨⟨t, ht⟩, hcases⟩ := askLoop_spec backend q k (UiGradio.modes_to_try mode) []
  rcases hcases with ⟨m, pre, a, _, htr, _, hacc, _, _⟩ | ⟨hnone, _, _⟩
  · exfalso
    have h1 : a ∈ (UiGradio.askLoop backend q k (UiGradio.modes_to_try mode) []).1 := by
      rw [htr]; exact List.mem_append_right _ (List.mem_singleton.mpr rfl)
    have h2 := List.mem_append_left t h1
    rw [ht] at h2
    rw [hall a h2] at hacc
    exact Bool.false_ne_true hacc
  · exact hnone

/-- When the orchestrator reports a usable mode, the final hits are the
accepted attempt's non-empty result. -/
theorem orchestrate_some_nonempty (backend : Mode → Nat → WeaviateReply) (q : String)
    (mode : Mode) (k : Nat) (m : Mode)
    (hsome : (UiGradio.orchestrate backend q mode k).2.1 = some m) :
    (UiGradio.orchestrate backend q mode k).2.2.isEmpty = false := by
  unfold UiGradio.orchestrate at hsome ⊢
  obtain ⟨_, hcases⟩ := askLoop_spec backend q k (UiGradio.modes_to_try mode) []
  rcases hcases with ⟨m', pre, a, _, _, _, hacc, _, hhits⟩ | ⟨hnone, _, _⟩
  · have hne := (Bool.and_eq_true _ _).mp hacc |>.1
    rw [hhits]
    cases hx : (UiGradio.try_search backend a.1 a.2).isEmpty with
    | false => rfl
    | true => rw [hx] at hne; exact absurd hne (by simp)
  · rw [hnone] at hsome; exact absurd hsome (by simp)

/-- C4: when every retrieval attempt fails the confidence gate, both
pipelines return exactly the sentinel answer with empty sources and perform
no generation call — `rag_answer` when its single queried hit list fails the
gate, and the UI handler when no planned attempt of the orchestrator is
accepted (which covers all-empty hit sets and hits of score 0.1 under the
default gates). -/
theorem C4_exhausted_sentinel (backend : Mode → Nat → WeaviateReply)
    (gen : String → Nat → GenResult) (q : String) (mode : Mode) (alpha : ℚ)
    (k : Nat) (rc : Bool) (hits : List Hit) :
    (BackendCore._query backend mode k = Except.ok hits →
      BackendCore._ok hits mode = false →
      ∃ d : BackendCore.RagResult,
        BackendCore.rag_answer backend gen q mode alpha k rc = Except.ok (d, []) ∧
        d.answer = "I don't know." ∧ d.src = "") ∧
    ((∀ x ∈ plannedAttempts mode k, attemptAccepted backend q x = false) →
      UiGradio.ask_core backend gen q mode k = ("I don't know.", "", [])) := by
  constructor
  · intro hq hok
    refine ⟨{ answer := "I don't know.", src := "", hits := hits.length,
              best_conf := if hits.isEmpty then 0 else listMax (hits.map BackendCore._conf),
              mode := mode, alpha := alpha, k := k }, ?_, rfl, rfl⟩
    unfold BackendCore.rag_answer
    rw [hq]
    simp [hok]
  · intro hall
    have hnone := orchestrate_exhausted backend q mode k hall
    unfold UiGradio.ask_core
    simp [hnone]

/-- A text ending in the characters `[1]` contains a citation marker. -/
theorem hasCitationL_append_cit (z : List Char) :
    hasCitationL (z ++ ['[', '1', ']']) = true := by
  induction z with
  | nil => rfl
  | cons c z ih => simp [hasCitationL, ih]

/-- `rstrip` keeps a text that ends in the non-whitespace `]` unchanged. -/
theorem rstrip_append_cit (w : List Char) :
    pyRStripL (w ++ [' ', '[', '1', ']']) = w ++ [' ', '[', '1', ']'] := by
  unfold pyRStripL
  have h : (w ++ [' ', '[', '1', ']']).reverse = ']' :: '1' :: '[' :: ' ' :: w.reverse := by
    simp
  rw [h, List.dropWhile_cons]
  simp [isPySpace]

/-- Stripping a text that ends in ` [1]` leaves a citation marker in it. -/
theorem pyStrip_append_cit (y : List Char) :
    hasCitationL (pyStripL (y ++ [' ', '[', '1', ']'])) = true := by
  unfold pyStripL
  rw [List.dropWhile_append]
  by_cases hy : (y.dropWhile isPySpace).isEmpty
  · rw [if_pos hy]
    decide
  · rw [if_neg hy, rstrip_append_cit]
    have h : y.dropWhile isPySpace ++ [' ', '[', '1', ']'] =
        (y.dropWhile isPySpace ++ [' ']) ++ ['[', '1', ']'] := by simp
    rw [h]
    exact hasCitationL_append_cit _

/-- The best-effort ` [1]` appended by the citation-enforcement step always
leaves a citation marker in the final answer. -/
theorem hasCitation_strip_append (s : String) :
    hasCitation (pyStripStr (pyRStripStr s ++ " [1]")) = true := by
  have hdata : (pyRStripStr s ++ " [1]").data = pyRStripL s.data ++ [' ', '[', '1', ']'] := by
    simp [pyRStripStr, String.data_append]
  unfold hasCitation pyStripStr
  rw [hdata]
  exact pyStrip_append_cit _

/-- Every answer produced by the final validation step of `rag_answer` with
citation enforcement is the sentinel or carries a citation marker. -/
theorem finishAnswer_answer_cases (answer src : String) (d : BackendCore.RagResult) :
    (BackendCore.finishAnswer answer src d true).answer = "I don't know." ∨
    hasCitation (BackendCore.finishAnswer answer src d true).answer = true := by
  unfold BackendCore.finishAnswer BackendCore.finishAutocad
  split_ifs with h1 h2 h3 h4
  · exact Or.inl rfl
  · exact Or.inl rfl
  · exact Or.inr (hasCitation_strip_append answer)
  · exact Or.inl rfl
  · refine Or.inr ?_
    have hc : hasCitation answer = true := by simpa using h1
    simpa using hc

/-- C5 as stated is false on the code: with one retrieved source, a generated
answer citing `[7]` is returned unchanged — the validator only checks that
*some* bracketed citation exists, never that indices fall within
`{1 … len(sources)}`.  Here the pipeline returns the answer `"Answer [7]"`
whose citation set is `{7}` while only one source exists. -/
theorem C5_counterexample :
    (BackendCore.rag_answer goodBackend genSeven "q" Mode.hybrid (2 / 5) 10 true).toOption.map
        (fun r => (r.1.answer, r.1.hits, citations r.1.answer)) =
      some ("Answer [7]", 1, [7]) ∧
    ¬(∀ i ∈ [7], 1 ≤ i ∧ i ≤ 1) := by
  constructor
  · decide
  · decide

/-- C5 amended: with citation enforcement on, every answer `rag_answer`
returns is the sentinel, a generation-error report, or contains at least one
bracketed citation marker; the pipeline does not check that citation indices
fall within `{1 … len(sources)}`. -/
theorem C5_citation_presence (backend : Mode → Nat → WeaviateReply)
    (gen : String → Nat → GenResult) (q : String) (mode : Mode) (alpha : ℚ) (k : Nat)
    (r : BackendCore.RagResult) (tr : List GenCall)
    (h : BackendCore.rag_answer backend gen q mode alpha k true = Except.ok (r, tr)) :
    r.answer = "I don't know." ∨ (∃ e, r.answer = "Generation error: " ++ e) ∨
      hasCitation r.answer = true := by
  unfold BackendCore.rag_answer at h
  cases hq : BackendCore._query backend mode k with
  | error e => rw [hq] at h; simp at h
  | ok hits =>
      rw [hq] at h
      simp only at h
      by_cases hok : BackendCore._ok hits mode = true
      · rw [if_neg (by simp [hok])] at h
        cases hg : gen (BackendCore._prompt q (BackendCore._ctx hits).1) 1200 with
        | exn e =>
            rw [hg] at h
            simp only [Except.ok.injEq, Prod.mk.injEq] at h
            exact Or.inr (Or.inl ⟨e, by rw [← h.1]⟩)
        | ok t1 =>
            rw [hg] at h
            simp only at h
            by_cases hs : pyStripStr (BackendCore._strip t1) = ""
            · rw [if_pos hs] at h
              cases hg2 : gen (BackendCore._prompt q (BackendCore._ctx hits).1 ++
                  BackendCore.briefSuffix) 400 with
              | exn e =>
                  rw [hg2] at h
                  simp only at h
                  simp only [Except.ok.injEq, Prod.mk.injEq] at h
                  exact Or.inr (Or.inl ⟨e, by rw [← h.1]⟩)
              | ok t2 =>
                  rw [hg2] at h
                  simp only at h
                  simp only [Except.ok.injEq, Prod.mk.injEq] at h
                  rw [← h.1]
                  rcases finishAnswer_answer_cases (BackendCore._strip t2)
                      (BackendCore._ctx hits).2 _ with hc | hc
                  · exact Or.inl hc
                  · exact Or.inr (Or.inr hc)
            · rw [if_neg hs] at h
              simp only [Except.ok.injEq, Prod.mk.injEq] at h
              rw [← h.1]
              rcases finishAnswer_answer_cases (BackendCore._strip t1)
                  (BackendCore._ctx hits).2 _ with hc | hc
              · exact Or.inl hc
              · exact Or.inr (Or.inr hc)
      · rw [if_pos (by simp [Bool.not_eq_true] at hok; simp [hok])] at h
        simp only [Except.ok.injEq, Prod.mk.injEq] at h
        exact Or.inl (by rw [← h.1])

/-- Witness for C5 (amended): a concrete run returning `"Answer [7]"`, whose
answer indeed falls into the citation-carrying case. -/
theorem C5_citation_presence_witness :
    "Answer [7]" = "I don't know." ∨
    (∃ e : String, "Answer [7]" = "Generation error: " ++ e) ∨
    hasCitation "Answer [7]" = true := by
  have h : BackendCore.rag_answer goodBackend genSeven "q" Mode.hybrid 0 10 true =
      Except.ok ({ answer := "Answer [7]",
                   src := "- [1] Curtain Walls (chunk 1)\n  http://x",
                   hits := 1, best_conf := mkRat 9 10, mode := Mode.hybrid,
                   alpha := 0, k := 10 },
        [{ prompt := BackendCore._prompt "q" (BackendCore._ctx [hitScore09]).1,
           max_tokens := 1200 }]) := by rfl
  exact C5_citation_presence goodBackend genSeven "q" Mode.hybrid 0 10 _ _ h

/-- C6 as stated is false on the code: in the Gradio handler, a raised
generation error becomes the message `"I encountered an error …"`, which the
citation post-check then replaces with the sentinel — the caller sees
exactly "I don't know.", not a distinguishable error outcome. -/
theorem C6_counterexample :
    (UiGradio.ask_core goodBackend genErr "q" Mode.hybrid 6).1 = "I don't know." ∧
    (UiGradio.ask_core goodBackend genErr "q" Mode.hybrid 6).2.1 = "" := by
  constructor <;> decide

/-- C6 amended: `backend_core.rag_answer` reports a raised generation error
(on either attempt) as the distinguishable outcome `"Generation error: …"`
with empty sources; the Gradio handler instead downgrades its
generation-error message to the sentinel whenever that message carries no
citation marker. -/
theorem C6_generation_error_reporting (backend : Mode → Nat → WeaviateReply)
    (gen : String → Nat → GenResult) (q : String) (mode : Mode) (alpha : ℚ) (k : Nat)
    (rc : Bool) (hits : List Hit) (e : String) :
    (BackendCore._query backend mode k = Except.ok hits →
      BackendCore._ok hits mode = true →
      gen (BackendCore._prompt q (BackendCore._ctx hits).1) 1200 = GenResult.exn e →
      ∃ d tr, BackendCore.rag_answer backend gen q mode alpha k rc = Except.ok (d, tr) ∧
        d.answer = "Generation error: " ++ e ∧ d.src = "") ∧
    (∀ t1, BackendCore._query backend mode k = Except.ok hits →
      BackendCore._ok hits mode = true →
      gen (BackendCore._prompt q (BackendCore._ctx hits).1) 1200 = GenResult.ok t1 →
      pyStripStr (BackendCore._strip t1) = "" →
      gen (BackendCore._prompt q (BackendCore._ctx hits).1 ++ BackendCore.briefSuffix) 400 =
        GenResult.exn e →
      ∃ d tr, BackendCore.rag_answer backend gen q mode alpha k rc = Except.ok (d, tr) ∧
        d.answer = "Generation error: " ++ e ∧ d.src = "") ∧
    (∀ m, (UiGradio.orchestrate backend q mode k).2.1 = some m →
      gen (UiGradio.build_prompt q
          (UiGradio.build_context (UiGradio.orchestrate backend q mode k).2.2).1) 600 =
        GenResult.exn e →
      hasCitation ("I encountered an error while generating the response: " ++ e) = false →
      (UiGradio.ask_core backend gen q mode k).1 = "I don't know." ∧
        (UiGradio.ask_core backend gen q mode k).2.1 = "") := by
  refine ⟨?_, ?_, ?_⟩
  · intro hq hok hg
    have heq : BackendCore.rag_answer backend gen q mode alpha k rc =
        Except.ok ({ answer := "Generation error: " ++ e, src := "",
                     hits := hits.length,
                     best_conf := if hits.isEmpty then 0
                       else listMax (hits.map BackendCore._conf),
                     mode := mode, alpha := alpha, k := k },
          [{ prompt := BackendCore._prompt q (BackendCore._ctx hits).1,
             max_tokens := 1200 }]) := by
      unfold BackendCore.rag_answer
      rw [hq]
      simp [hok, hg]
    exact ⟨_, _, heq, rfl, rfl⟩
  · intro t1 hq hok hg1 hs hg2
    have heq : BackendCore.rag_answer backend gen q mode alpha k rc =
        Except.ok ({ answer := "Generation error: " ++ e, src := "",
                     hits := hits.length,
                     best_conf := if hits.isEmpty then 0
                       else listMax (hits.map BackendCore._conf),
                     mode := mode, alpha := alpha, k := k },
          [{ prompt := BackendCore._prompt q (BackendCore._ctx hits).1,
             max_tokens := 1200 },
           { prompt := BackendCore._prompt q (BackendCore._ctx hits).1 ++
               BackendCore.briefSuffix, max_tokens := 400 }]) := by
      unfold BackendCore.rag_answer
      rw [hq]
      simp [hok, hg1, hs, hg2]
    exact ⟨_, _, heq, rfl, rfl⟩
  · intro m hsome hg hcit
    have hne := orchestrate_some_nonempty backend q mode k m hsome
    constructor <;>
      · unfold UiGradio.ask_core
        simp [hne, hsome, hg, UiGradio.askFinish, hcit]

/-- Witness for C6 (amended): concrete runs through all three parts. -/
theorem C6_generation_error_reporting_witness :
    (∃ d tr, BackendCore.rag_answer goodBackend genErr "q" Mode.hybrid 0 10 true =
        Except.ok (d, tr) ∧ d.answer = "Generation error: " ++ "boom" ∧ d.src = "") ∧
    ((UiGradio.ask_core goodBackend genErr "q" Mode.hybrid 6).1 = "I don't know." ∧
      (UiGradio.ask_core goodBackend genErr "q" Mode.hybrid 6).2.1 = "") := by
  constructor
  · exact (C6_generation_error_reporting goodBackend genErr "q" Mode.hybrid 0 10 true
      [hitScore09] "boom").1 rfl (by decide) rfl
  · exact (C6_generation_error_reporting goodBackend genErr "q" Mode.hybrid 0 6 true
      [hitScore09] "boom").2.2 Mode.hybrid (by decide) rfl (by decide)

/-- C7: when the first generation call's stripped text is empty, `rag_answer`
issues exactly one retry — the recorded call list is the first call with the
1200-token budget followed by the compressed-instruction variant with the
400-token budget — and the retry's (stripped) text becomes the answer
whenever it passes the citation and denylist checks; no further call is
recorded. -/
theorem C7_single_bounded_retry (backend : Mode → Nat → WeaviateReply)
    (gen : String → Nat → GenResult) (q : String) (mode : Mode) (alpha : ℚ) (k : Nat)
    (rc : Bool) (hits : List Hit) (t1 t2 : String)
    (hq : BackendCore._query backend mode k = Except.ok hits)
    (hok : BackendCore._ok hits mode = true)
    (hg1 : gen (BackendCore._prompt q (BackendCore._ctx hits).1) 1200 = GenResult.ok t1)
    (hs : pyStripStr (BackendCore._strip t1) = "")
    (hg2 : gen (BackendCore._prompt q (BackendCore._ctx hits).1 ++ BackendCore.briefSuffix)
      400 = GenResult.ok t2) :
    ∃ d, BackendCore.rag_answer backend gen q mode alpha k rc =
        Except.ok (d,
          [{ prompt := BackendCore._prompt q (BackendCore._ctx hits).1, max_tokens := 1200 },
           { prompt := BackendCore._prompt q (BackendCore._ctx hits).1 ++
               BackendCore.briefSuffix, max_tokens := 400 }]) ∧
      (hasCitation (BackendCore._strip t2) = true →
        mentionsAutocad (BackendCore._strip t2) = false →
        d.answer = BackendCore._strip t2) := by
  have heq : BackendCore.rag_answer backend gen q mode alpha k rc =
      Except.ok (BackendCore.finishAnswer (BackendCore._strip t2) (BackendCore._ctx hits).2
          { answer := "", src := "", hits := hits.length,
            best_conf := if hits.isEmpty then 0 else listMax (hits.map BackendCore._conf),
            mode := mode, alpha := alpha, k := k } rc,
        [{ prompt := BackendCore._prompt q (BackendCore._ctx hits).1, max_tokens := 1200 },
         { prompt := BackendCore._prompt q (BackendCore._ctx hits).1 ++
             BackendCore.briefSuffix, max_tokens := 400 }]) := by
    unfold BackendCore.rag_answer
    rw [hq]
    simp [hok, hg1, hs, hg2]
  refine ⟨_, heq, ?_⟩
  intro hcit haut
  unfold BackendCore.finishAnswer BackendCore.finishAutocad
  simp [hcit, haut]

/-- Witness for C7: Scenario C — empty text on the first call, a cited final
answer on the 400-token retry, which the pipeline returns. -/
theorem C7_single_bounded_retry_witness :
    ∃ d, BackendCore.rag_answer goodBackend genRetry "q" Mode.hybrid 0 10 true =
        Except.ok (d,
          [{ prompt := BackendCore._prompt "q" (BackendCore._ctx [hitScore09]).1,
             max_tokens := 1200 },
           { prompt := BackendCore._prompt "q" (BackendCore._ctx [hitScore09]).1 ++
               BackendCore.briefSuffix, max_tokens := 400 }]) ∧
      d.answer = "Final answer. [1]" := by
  obtain ⟨d, heq, himp⟩ := C7_single_bounded_retry goodBackend genRetry "q" Mode.hybrid 0 10
    true [hitScore09] "" "Final answer. [1]" rfl (by decide) rfl (by decide) rfl
  refine ⟨d, heq, ?_⟩
  have ha := himp (by decide) (by decide)
  rw [ha]
  decide

/-- C8 as stated is false on the code: an error raised during the retrieval
call of `backend_core._query` propagates out of `rag_answer` to the caller
(there is no `try` around it), instead of being treated as empty hits. -/
theorem C8_counterexample :
    BackendCore.rag_answer errBackend genSeven "q" Mode.hybrid 0 10 true =
      Except.error "connection refused" := rfl

/-- C8 amended: the Gradio orchestrator's `try_search` catches any raised
retrieval error and treats it exactly like an empty hit list, and `_query`
maps every malformed payload to empty hits; but an error raised inside
`backend_core._query` propagates out of `rag_answer` to the caller. -/
theorem C8_retrieval_error_handling (backend : Mode → Nat → WeaviateReply)
    (gen : String → Nat → GenResult) (m : Mode) (kk : Nat) (e q : String) (mode : Mode)
    (alpha : ℚ) (k : Nat) (rc : Bool) :
    (backend m kk = WeaviateReply.error e → UiGradio.try_search backend m kk = []) ∧
    (backend mode k = WeaviateReply.malformed →
      BackendCore._query backend mode k = Except.ok []) ∧
    (backend mode k = WeaviateReply.error e →
      BackendCore.rag_answer backend gen q mode alpha k rc = Except.error e) := by
  refine ⟨?_, ?_, ?_⟩
  · intro hb; unfold UiGradio.try_search; rw [hb]
  · intro hb; unfold BackendCore._query; rw [hb]
  · intro hb
    unfold BackendCore.rag_answer BackendCore._query
    rw [hb]

/-- Witness for C8 (amended): a raising backend and a malformed backend. -/
theorem C8_retrieval_error_handling_witness :
    UiGradio.try_search errBackend Mode.hybrid 6 = [] ∧
    BackendCore._query malformedBackend Mode.hybrid 10 = Except.ok [] ∧
    BackendCore.rag_answer errBackend genSeven "q" Mode.bm25 0 10 true =
      Except.error "connection refused" := by
  refine ⟨?_, ?_, ?_⟩
  · exact (C8_retrieval_error_handling errBackend genSeven Mode.hybrid 6 "connection refused"
      "q" Mode.hybrid 0 10 true).1 rfl
  · exact (C8_retrieval_error_handling malformedBackend genSeven Mode.hybrid 6
      "connection refused" "q" Mode.hybrid 0 10 true).2.1 rfl
  · exact (C8_retrieval_error_handling errBackend genSeven Mode.hybrid 6 "connection refused"
      "q" Mode.bm25 0 10 true).2.2 rfl

/-- Witness for C4: Scenario B (all hits of score 0.1, under the default
gates) and an all-empty backend, in both pipelines. -/
theorem C4_exhausted_sentinel_witness :
    (∃ d, BackendCore.rag_answer lowBackend genSeven "q" Mode.hybrid 0 10 true =
        Except.ok (d, []) ∧ d.answer = "I don't know." ∧ d.src = "") ∧
    UiGradio.ask_core lowBackend genSeven "q" Mode.hybrid 6 = ("I don't know.", "", []) ∧
    UiGradio.ask_core emptyBackend genSeven "q" Mode.vector 6 = ("I don't know.", "", []) := by
  refine ⟨?_, ?_, ?_⟩
  · exact (C4_exhausted_sentinel lowBackend genSeven "q" Mode.hybrid 0 10 true
      [hitScore01]).1 rfl (by decide)
  · exact (C4_exhausted_sentinel lowBackend genSeven "q" Mode.hybrid 0 6 true
      [hitScore01]).2 (by decide)
  · exact (C4_exhausted_sentinel emptyBackend genSeven "q" Mode.vector 0 6 true []).2
      (by decide)

/-! ## Lemmas about the backend `<think>` scanner (for C10) -/

theorem ciEq_refl (c : Char) : ciEq c c = true := by simp [ciEq]

theorem ciEq_t_lt : ciEq 't' '<' = false := by decide

theorem ciEq_h_lt : ciEq 'h' '<' = false := by decide

theorem ciEq_i_lt : ciEq 'i' '<' = false := by decide

theorem ciEq_n_lt : ciEq 'n' '<' = false := by decide

theorem ciEq_k_lt : ciEq 'k' '<' = false := by decide

theorem ciEq_gt_lt : ciEq '>' '<' = false := by decide

/-- A tag matches itself (case-insensitively) at the head of any extension. -/
theorem startsWithCI_self_append (t x : List Char) : startsWithCI t (t ++ x) = true := by
  induction t with
  | nil => rfl
  | cons c ts ih => simp [startsWithCI, ciEq_refl, ih]

/-- A match of `t` inside `x ++ y` that fits within `x` ignores `y`. -/
theorem startsWithCI_long (t x y : List Char) (h : t.length ≤ x.length) :
    startsWithCI t (x ++ y) = startsWithCI t x := by
  induction t generalizing x with
  | nil => simp [startsWithCI]
  | cons c ts ih =>
      cases x with
      | nil => simp at h
      | cons d xs =>
          simp only [List.cons_append, startsWithCI, List.append_eq]
          rw [ih xs (by simpa using h)]

/-- `<think>` cannot match while straddling the boundary between a short
non-empty prefix and a following literal `<think>`: the character of the tag
compared against the tag's own `<` differs. -/
theorem no_span_open (p b : List Char) (hne : p ≠ []) (hlen : p.length < 7) :
    startsWithCI thinkOpenL (p ++ (thinkOpenL ++ b)) = false := by
  rcases p with _ | ⟨c1, _ | ⟨c2, _ | ⟨c3, _ | ⟨c4, _ | ⟨c5, _ | ⟨c6, _ | ⟨c7, p⟩⟩⟩⟩⟩⟩⟩
  · exact absurd rfl hne
  · simp [thinkOpenL, startsWithCI, ciEq_t_lt]
  · simp [thinkOpenL, startsWithCI, ciEq_h_lt]
  · simp [thinkOpenL, startsWithCI, ciEq_i_lt]
  · simp [thinkOpenL, startsWithCI, ciEq_n_lt]
  · simp [thinkOpenL, startsWithCI, ciEq_k_lt]
  · simp [thinkOpenL, startsWithCI, ciEq_gt_lt]
  · simp at hlen
    omega

/-- The scanner copies an opening-marker-free prefix verbatim. -/
theorem scan_keep : ∀ (a b : List Char), containsCI thinkOpenL a = false →
    rtb RtSt.outside (a ++ (thinkOpenL ++ b)) =
      a ++ rtb RtSt.outside (thinkOpenL ++ b) := by
  intro a
  induction a with
  | nil => intro b _; simp
  | cons d a' ih =>
      intro b ha
      simp only [containsCI] at ha
      obtain ⟨h1, h2⟩ := Bool.or_eq_false_iff.mp ha
      have hguard : startsWithCI thinkOpenL ((d :: a') ++ (thinkOpenL ++ b)) = false := by
        by_cases hl : thinkOpenL.length ≤ (d :: a').length
        · rw [startsWithCI_long _ _ _ hl, h1]
        · refine no_span_open (d :: a') b (by simp) ?_
          have h7 : thinkOpenL.length = 7 := rfl
          rw [h7] at hl
          omega
      have e2 : rtb RtSt.outside (d :: (a' ++ (thinkOpenL ++ b))) =
          d :: rtb RtSt.outside (a' ++ (thinkOpenL ++ b)) := by
        simp only [rtb]
        rw [if_neg (by simpa using hguard)]
      calc rtb RtSt.outside ((d :: a') ++ (thinkOpenL ++ b))
          = rtb RtSt.outside (d :: (a' ++ (thinkOpenL ++ b))) := by simp
        _ = d :: rtb RtSt.outside (a' ++ (thinkOpenL ++ b)) := e2
        _ = d :: (a' ++ rtb RtSt.outside (thinkOpenL ++ b)) := by rw [ih b h2]
        _ = (d :: a') ++ rtb RtSt.outside (thinkOpenL ++ b) := by simp

/-- Consuming the literal opening marker puts the scanner inside a block. -/
theorem open_consume (b : List Char) :
    rtb RtSt.outside (thinkOpenL ++ b) = rtb RtSt.inside b := by
  simp [thinkOpenL, rtb, startsWithCI, ciEq_refl]

/-- With no closing marker anywhere after it, an open block swallows the rest
of the text, except a single final newline (the `$` of the pattern). -/
theorem inside_no_close : ∀ (b : List Char), containsCI thinkCloseL b = false →
    rtb RtSt.inside b = if b.getLast? = some '\n' then ['\n'] else [] := by
  intro b
  induction b with
  | nil => intro _; simp [rtb]
  | cons c rest ih =>
      intro hb
      simp only [containsCI] at hb
      obtain ⟨h1, h2⟩ := Bool.or_eq_false_iff.mp hb
      cases rest with
      | nil =>
          by_cases hc : c = '\n'
          · subst hc; simp [rtb, h1]
          · simp [rtb, h1, hc]
      | cons d rest' =>
          have e : rtb RtSt.inside (c :: d :: rest') = rtb RtSt.inside (d :: rest') := by
            simp only [rtb]
            rw [if_neg (by simp [h1])]
          rw [e, ih h2, List.getLast?_cons_cons]

/-- The scanner leaves an opening-marker-free text unchanged. -/
theorem rtb_outside_id : ∀ (a : List Char), containsCI thinkOpenL a = false →
    rtb RtSt.outside a = a := by
  intro a
  induction a with
  | nil => intro _; rfl
  | cons c rest ih =>
      intro ha
      simp only [containsCI] at ha
      obtain ⟨h1, h2⟩ := Bool.or_eq_false_iff.mp ha
      simp only [rtb]
      rw [if_neg (by simp [h1]), ih h2]

/-! ## Lemmas about the `Sources:` cut and `strip` (for C10) -/

/-- Appending a character that matches no character of the tag does not
affect a front-match of the tag. -/
theorem startsWithCI_append_single (t : List Char) (d : Char)
    (h : ∀ c ∈ t, ciEq c d = false) :
    ∀ (x : List Char), startsWithCI t (x ++ [d]) = startsWithCI t x := by
  induction t with
  | nil => intro x; simp [startsWithCI]
  | cons c ts ih =>
      intro x
      cases x with
      | nil =>
          simp only [List.nil_append, startsWithCI]
          rw [h c (by simp)]
          simp
      | cons e xs =>
          simp only [List.cons_append, startsWithCI, List.append_eq]
          rw [ih (fun c hc => h c (List.mem_cons_of_mem _ hc)) xs]

/-- A trailing newline does not create or destroy a `Sources?:` match. -/
theorem srcTagAt_append_nl (x : List Char) : srcTagAt (x ++ ['\n']) = srcTagAt x := by
  unfold srcTagAt
  have hsrc : ∀ c ∈ ['s', 'o', 'u', 'r', 'c', 'e'], ciEq c '\n' = false := by decide
  have hs2 : ∀ c ∈ ['s', ':'], ciEq c '\n' = false := by decide
  have hc2 : ∀ c ∈ [':'], ciEq c '\n' = false := by decide
  rw [startsWithCI_append_single _ _ hsrc]
  by_cases hl : 6 ≤ x.length
  · rw [List.drop_append_of_le_length hl]
    rw [startsWithCI_append_single _ _ hs2, startsWithCI_append_single _ _ hc2]
  · have e1 : List.drop 6 (x ++ ['\n']) = [] :=
      List.drop_eq_nil_of_le (by simp only [List.length_append, List.length_singleton]; omega)
    have e2 : List.drop 6 x = [] := List.drop_eq_nil_of_le (by omega)
    rw [e1, e2]

/-- A trailing newline does not change whether the cut fires at a position. -/
theorem srcCut_append_nl (c : Char) (a : List Char) :
    srcCut (c :: (a ++ ['\n'])) = srcCut (c :: a) := by
  by_cases hc : c = '\n'
  · subst hc
    have e : ∀ X : List Char,
        srcCut ('\n' :: X) = srcTagAt (X.dropWhile (fun c => c = '\n')) := by
      intro X
      show srcTagAt (('\n' :: X).dropWhile (fun c => c = '\n')) =
        srcTagAt (X.dropWhile (fun c => c = '\n'))
      rw [List.dropWhile_cons]
      simp
    rw [e, e]
    rw [List.dropWhile_append]
    by_cases he : (a.dropWhile (fun c => c = '\n')).isEmpty
    · rw [if_pos he]
      rw [List.isEmpty_iff.mp he]
      decide
    · rw [if_neg he, srcTagAt_append_nl]
  · have key : ∀ X : List Char, srcCut (c :: X) = false := by
      intro X
      unfold srcCut
      split
      · next tail heq => exact absurd (List.cons.inj heq).1 hc
      · rfl
    rw [key, key]

/-- Appending a final newline to the text either leaves the `Sources:` cut
output unchanged (the cut fired) or appends the newline to it. -/
theorem removeSrc_append_nl : ∀ (a : List Char),
    removeSrc (a ++ ['\n']) = removeSrc a ∨
    removeSrc (a ++ ['\n']) = removeSrc a ++ ['\n'] := by
  intro a
  induction a with
  | nil => right; decide
  | cons c a' ih =>
      have hc := srcCut_append_nl c a'
      have e0 : (c :: a') ++ ['\n'] = c :: (a' ++ ['\n']) := by simp
      by_cases h : srcCut (c :: a') = true
      · left
        have e1 : removeSrc (c :: (a' ++ ['\n'])) = [] := by
          simp only [removeSrc]
          rw [if_pos (by rw [hc]; exact h)]
        have e2 : removeSrc (c :: a') = [] := by
          simp only [removeSrc]
          rw [if_pos h]
        rw [e0, e1, e2]
      · have hf : srcCut (c :: a') = false := by
          cases hx : srcCut (c :: a') with
          | true => exact absurd hx h
          | false => rfl
        have e1 : removeSrc (c :: (a' ++ ['\n'])) = c :: removeSrc (a' ++ ['\n']) := by
          simp only [removeSrc]
          rw [if_neg (by rw [hc, hf]; simp)]
        have e2 : removeSrc (c :: a') = c :: removeSrc a' := by
          simp only [removeSrc]
          rw [if_neg (by rw [hf]; simp)]
        rw [e0, e1, e2]
        rcases ih with hih | hih
        · left; rw [hih]
        · right; rw [hih]; simp

/-- A trailing newline is discarded by the right strip. -/
theorem pyRStripL_append_nl (y : List Char) : pyRStripL (y ++ ['\n']) = pyRStripL y := by
  unfold pyRStripL
  rw [List.reverse_append, List.reverse_singleton, List.singleton_append,
    List.dropWhile_cons]
  have hnl : isPySpace '\n' = true := by decide
  rw [hnl]
  simp

/-- A trailing newline is discarded by `strip`. -/
theorem pyStripL_append_nl (x : List Char) : pyStripL (x ++ ['\n']) = pyStripL x := by
  unfold pyStripL
  rw [List.dropWhile_append]
  by_cases he : (x.dropWhile isPySpace).isEmpty
  · rw [if_pos he]
    have h0 : List.dropWhile isPySpace ['\n'] = [] := by decide
    rw [h0, List.isEmpty_iff.mp he]
  · rw [if_neg he, pyRStripL_append_nl]

/-- `dropWhile` is idempotent. -/
theorem dropWhile_self_idem (p : Char → Bool) (l : List Char) :
    List.dropWhile p (List.dropWhile p l) = List.dropWhile p l := by
  induction l with
  | nil => rfl
  | cons c rest ih =>
      rw [List.dropWhile_cons]
      by_cases hp : p c = true
      · rw [if_pos hp]; exact ih
      · rw [if_neg hp, List.dropWhile_cons, if_neg hp]

/-- `dropWhile` never lengthens a list. -/
theorem length_dropWhile_le (p : Char → Bool) (l : List Char) :
    (List.dropWhile p l).length ≤ l.length := by
  induction l with
  | nil => simp
  | cons c rest ih =>
      rw [List.dropWhile_cons]
      by_cases hp : p c = true
      · rw [if_pos hp]; exact Nat.le_trans ih (Nat.le_succ _)
      · rw [if_neg hp]

/-- The right strip is idempotent. -/
theorem pyRStripL_idem (y : List Char) : pyRStripL (pyRStripL y) = pyRStripL y := by
  unfold pyRStripL
  rw [List.reverse_reverse, dropWhile_self_idem]

/-- A text with no leading whitespace still has none after a right strip. -/
theorem dropWhile_pyRStripL (y : List Char)
    (hy : List.dropWhile isPySpace y = y) :
    List.dropWhile isPySpace (pyRStripL y) = pyRStripL y := by
  have hpre : ∃ t, pyRStripL y ++ t = y := by
    obtain ⟨s, hs⟩ := List.dropWhile_suffix (l := y.reverse) isPySpace
    refine ⟨s.reverse, ?_⟩
    have := congrArg List.reverse hs
    simpa [pyRStripL] using this
  cases hz : pyRStripL y with
  | nil => rfl
  | cons c z' =>
      obtain ⟨t, ht⟩ := hpre
      rw [hz] at ht
      have ht' : c :: (z' ++ t) = y := by simpa using ht
      have hyc : List.dropWhile isPySpace (c :: (z' ++ t)) = c :: (z' ++ t) := by
        rw [ht']; exact hy
      have hcf : isPySpace c = false := by
        by_contra hcc
        rw [Bool.not_eq_false] at hcc
        rw [List.dropWhile_cons, if_pos hcc] at hyc
        have hlen := congrArg List.length hyc
        have hle := length_dropWhile_le isPySpace (z' ++ t)
        simp only [List.length_cons] at hlen
        omega
      rw [List.dropWhile_cons, if_neg (by rw [hcf]; simp)]

/-- `strip` is idempotent. -/
theorem pyStripL_idem (l : List Char) : pyStripL (pyStripL l) = pyStripL l := by
  unfold pyStripL
  rw [dropWhile_pyRStripL _ (dropWhile_self_idem _ _), pyRStripL_idem]

/-- C10: `backend_core._strip` removes a reasoning segment whose opening
`<think>` marker is never closed, deleting everything from the marker through
the end of the text (the `$` alternative of its pattern); the function is a
total text transform whose output carries no surrounding whitespace; and it
also removes properly closed `<think>…</think>` segments and a trailing
`Sources:` section (shown on concrete texts). -/
theorem C10_strip_behavior :
    (∀ a b : List Char, containsCI thinkOpenL a = false →
      containsCI thinkCloseL b = false →
      BackendCore._strip (String.mk (a ++ (thinkOpenL ++ b))) =
        BackendCore._strip (String.mk a)) ∧
    (∀ s : String, pyStripStr (BackendCore._strip s) = BackendCore._strip s) ∧
    BackendCore._strip "Say hi. <think>plan steps</think>Done. [1]" = "Say hi. Done. [1]" ∧
    BackendCore._strip "Done. [1]\nSources: something" = "Done. [1]" := by
  refine ⟨?_, ?_, by decide, by decide⟩
  · intro a b ha hb
    show String.mk (pyStripL (removeSrc (removeThinkB (a ++ (thinkOpenL ++ b))))) =
      String.mk (pyStripL (removeSrc (removeThinkB a)))
    have h1 : removeThinkB (a ++ (thinkOpenL ++ b)) = a ++ rtb RtSt.inside b := by
      unfold removeThinkB
      rw [scan_keep a b ha, open_consume]
    have h2 : removeThinkB a = a := rtb_outside_id a ha
    rw [h1, h2, inside_no_close b hb]
    by_cases hlast : b.getLast? = some '\n'
    · rw [if_pos hlast]
      rcases removeSrc_append_nl a with h | h
      · rw [h]
      · rw [h, pyStripL_append_nl]
    · rw [if_neg hlast]
      simp
  · intro s
    show String.mk (pyStripL ((String.mk (pyStripL (removeSrc (removeThinkB s.data)))).data)) =
      String.mk (pyStripL (removeSrc (removeThinkB s.data)))
    rw [show (String.mk (pyStripL (removeSrc (removeThinkB s.data)))).data =
      pyStripL (removeSrc (removeThinkB s.data)) from rfl]
    rw [pyStripL_idem]

/-- Witness for C10: a concrete unclosed reasoning segment is cut away, and
the surviving prefix is returned stripped. -/
theorem C10_strip_behavior_witness :
    BackendCore._strip (String.mk ("Answer ready. [1] ".data ++
        (thinkOpenL ++ " dangling reasoning\n".data))) =
      BackendCore._strip (String.mk "Answer ready. [1] ".data) ∧
    BackendCore._strip (String.mk "Answer ready. [1] ".data) = "Answer ready. [1]" := by
  constructor
  · exact C10_strip_behavior.1 "Answer ready. [1] ".data " dangling reasoning\n".data
      (by decide) (by decide)
  · decide
